import Mathlib

/-!
Verification development for the Lancet2 core sources
(`src/run_pipeline.cpp`, `src/node.cpp`, `src/window_builder.cpp`).

The C++ code is embedded shallowly: machine integers become `Nat`/`Int`
(the values reached by the claims stay far below every relevant word
size, so no wrap-around is modelled), the `double` arithmetic of
`WindowBuilder::StepSize` and `RequiredBufferWindows` is modelled with
exact rational arithmetic (`std::round` is round-half-away-from-zero,
which on non-negative inputs is Mathlib's `round`, and all inputs
evaluated in this development are exactly representable as doubles),
fallible functions return `Except`, and the stateful driver loop of
`RunPipeline` becomes an explicit fold over the completion order.
-/

namespace Lancet

/-! ### Status codes (absl::Status kinds used by the window builder) -/

/-- Error kinds returned by `WindowBuilder::ParseRegion` / `ParseBed`. -/
inductive Status where
  | invalidArgument
  | internal
deriving DecidableEq

/-! ### WindowBuilder::StepSize (window_builder.cpp lines 111-115) -/

/-- Model of `WindowBuilder::StepSize`: `rawVal = ((100 - pct)/100) * L`,
result `round(rawVal / 100) * 100`, with the double arithmetic replaced by
exact rational arithmetic.  `pct` is a `uint32`; the subtraction `100 - pct`
is modelled with truncated `Nat` subtraction, which agrees with the C++
value for every `pct ≤ 100` (all claims restrict `pct ≤ 99`). -/
def StepSize (pctOverlap windowLength : ℕ) : ℤ :=
  round (((((100 - pctOverlap : ℕ) : ℚ) / 100) * (windowLength : ℚ)) / 100) * 100

/-! ### RequiredBufferWindows (run_pipeline.cpp lines 42-47) -/

/-- Model of `RequiredBufferWindows`:
`static_cast<size_t>(3.0 * std::ceil(maxFlankLen / windowStep))` where
`maxFlankLen = max(maxIndelLength, windowLength)` and
`windowStep = StepSize(pctOverlap, windowLength)`, with the double
arithmetic replaced by exact rational arithmetic. -/
def RequiredBufferWindows (maxIndelLength windowLength pctOverlap : ℕ) : ℕ :=
  (3 * ⌈((max maxIndelLength windowLength : ℕ) : ℚ) /
        ((StepSize pctOverlap windowLength : ℤ) : ℚ)⌉).toNat

/-- Formula for the look-ahead buffer written in the specification,
`B = ⌈3 · max(maxIndelLen, windowLen) / stepSize⌉`, for comparison with
`RequiredBufferWindows` (the definition embedded from the source). -/
def SpecBufferWindows (maxIndelLength windowLength pctOverlap : ℕ) : ℕ :=
  (⌈3 * ((max maxIndelLength windowLength : ℕ) : ℚ) /
        ((StepSize pctOverlap windowLength : ℤ) : ℚ)⌉).toNat

/-! ### Driver flush loop (run_pipeline.cpp lines 91-126) -/

/-- State of the `RunPipeline` driver loop: the `doneWindows` array, the
`idxToFlush` pointer and the list of indices passed to
`VariantStore::FlushWindow` so far (in call order). -/
structure DriverState where
  done : List Bool
  idxToFlush : ℕ
  flushes : List ℕ
deriving DecidableEq

/-- Model of the `allWindowsUptoDone` lambda: `all_of` over the iterator
range `[cbegin, cbegin + win_idx)`, clamped to the array end when
`win_idx ≥ size` — i.e. every entry of the prefix of length `win_idx`
(clamped) is `true`. -/
def allWindowsUptoDone (done : List Bool) (winIdx : ℕ) : Bool :=
  (done.take winIdx).all (fun b => b)

/-- Model of one iteration of the driver's `while (numDone < numTotal)`
loop body for a dequeued completion `windowIdx`: mark the window done,
then, if `allWindowsUptoDone (idxToFlush + numBufWindows)`, flush
`idxToFlush` once and advance it. -/
def driverStep (numBufWindows : ℕ) (st : DriverState) (windowIdx : ℕ) : DriverState :=
  let done := st.done.set windowIdx true
  if allWindowsUptoDone done (st.idxToFlush + numBufWindows) then
    ⟨done, st.idxToFlush + 1, st.flushes ++ [st.idxToFlush]⟩
  else
    ⟨done, st.idxToFlush, st.flushes⟩

/-- Model of the driver loop run over a completion arrival order, from
the initial state (`doneWindows.fill(false)`, `idxToFlush = 0`, no
flushes yet). -/
def driverRun (numWindows numBufWindows : ℕ) (completions : List ℕ) : DriverState :=
  completions.foldl (driverStep numBufWindows) ⟨List.replicate numWindows false, 0, []⟩

/-! ### Node edge state (node.cpp lines 38-84, 143-153) -/

/-- Two-bit strand-pair tag of an edge (`EdgeKind` in the source). -/
inductive EK where
  | FF
  | FR
  | RF
  | RR
deriving DecidableEq

/-- Rank of an `EK` value, used for the lexicographic edge order. -/
def EK.rank : EK → ℕ
  | .FF => 0
  | .FR => 1
  | .RF => 2
  | .RR => 3

/-- Edge of the de Bruijn graph: destination node identity plus kind
(the `Edge` class is outside `src/`; its data is given by the spec:
a tuple of destination node identity and `EdgeKind`). -/
structure Edge where
  destId : ℕ
  kind : EK
deriving DecidableEq

/-- Modelled from the spec: the sentinel source identity (`MOCK_SOURCE_ID`
is defined outside `src/`; the spec reserves the all-zero identity). -/
def MOCK_SOURCE_ID : ℕ := 0

/-- Modelled from the spec: the sentinel sink identity (`MOCK_SINK_ID` is
defined outside `src/`; the spec reserves the all-ones 64-bit identity). -/
def MOCK_SINK_ID : ℕ := 2 ^ 64 - 1

/-- Modelled from the spec: the order on `Edge` (its `operator<` is
outside `src/`); the spec states equality and ordering are lexicographic
over the pair (destination identity, kind). -/
def Edge.le (a b : Edge) : Prop :=
  a.destId < b.destId ∨ (a.destId = b.destId ∧ a.kind.rank ≤ b.kind.rank)

instance : DecidableRel Edge.le := fun a b => by
  unfold Edge.le; infer_instance

instance : IsTotal Edge Edge.le := ⟨by
  intro a b
  unfold Edge.le
  omega⟩

instance : IsTrans Edge Edge.le := ⟨by
  intro a b c hab hbc
  unfold Edge.le at hab hbc ⊢
  omega⟩

instance : IsAntisymm Edge Edge.le := ⟨by
  intro a b hab hba
  obtain ⟨d, k⟩ := a
  obtain ⟨d', k'⟩ := b
  simp only [Edge.le] at hab hba
  have hd : d = d' := by omega
  subst hd
  have hk : EK.rank k = EK.rank k' := by omega
  have hkk : k = k' := by
    revert hk
    cases k <;> cases k' <;> simp [EK.rank]
  subst hkk
  rfl⟩

/-- Sorting a list of edges by the `Edge` order (`std::sort` on a
duplicate-free list of totally ordered elements has a unique result,
so any sorting algorithm models it). -/
def sortEdges (l : List Edge) : List Edge :=
  l.insertionSort Edge.le

/-- Edge-related state of a `Node`: its identity, the `edgeSet` hash set
(modelled as a duplicate-free list), the sorted `orderedEdges`, and the
two counters.  The counters start at zero on construction. -/
structure NodeEdges where
  nodeID : ℕ
  edgeSet : List Edge
  orderedEdges : List Edge
  numSelfEdges : ℕ
  numMockEdges : ℕ
deriving DecidableEq

/-- Edge state of a freshly constructed `Node` with identity `id`. -/
def initNode (id : ℕ) : NodeEdges :=
  ⟨id, [], [], 0, 0⟩

/-- Model of `Node::EmplaceEdge(dest_id, k)` (node.cpp lines 38-47): the
counters are incremented unconditionally (before the set insertion);
the edge is inserted into `edgeSet` only if absent, and then appended to
`orderedEdges` followed by a re-sort. -/
def EmplaceEdge (n : NodeEdges) (destId : ℕ) (k : EK) : NodeEdges :=
  let nm := if destId = MOCK_SOURCE_ID ∨ destId = MOCK_SINK_ID
            then n.numMockEdges + 1 else n.numMockEdges
  let ns := if destId = n.nodeID then n.numSelfEdges + 1 else n.numSelfEdges
  let e : Edge := ⟨destId, k⟩
  if e ∈ n.edgeSet then
    { n with numMockEdges := nm, numSelfEdges := ns }
  else
    { n with numMockEdges := nm, numSelfEdges := ns,
             edgeSet := n.edgeSet ++ [e],
             orderedEdges := sortEdges (n.orderedEdges ++ [e]) }

/-- Model of `Node::EraseEdge(dest_id, k)` (node.cpp lines 49-57): if the
edge is present it is erased from `edgeSet` and `orderedEdges` is rebuilt
from the residual set and sorted; the counters are not touched. -/
def EraseEdge (n : NodeEdges) (destId : ℕ) (k : EK) : NodeEdges :=
  let e : Edge := ⟨destId, k⟩
  if e ∈ n.edgeSet then
    let s := n.edgeSet.erase e
    { n with edgeSet := s, orderedEdges := sortEdges s }
  else n

/-- The `ALL_EDGE_KINDS` array from node.cpp line 59. -/
def ALL_EDGE_KINDS : List EK := [.FF, .FR, .RF, .RR]

/-- Model of `Node::EraseEdge(dest_id)` (node.cpp lines 61-63): erase all
four kinds. -/
def EraseEdgeAllKinds (n : NodeEdges) (destId : ℕ) : NodeEdges :=
  ALL_EDGE_KINDS.foldl (fun m ek => EraseEdge m destId ek) n

/-- Model of `Node::ClearEdges` (node.cpp lines 65-68): empties both edge
structures (the counters are not touched). -/
def ClearEdges (n : NodeEdges) : NodeEdges :=
  { n with edgeSet := [], orderedEdges := [] }

/-- Model of `Node::HasConnection(dest_id)` (node.cpp lines 72-75):
`any_of` over the four edge kinds, testing set membership. -/
def HasConnection (n : NodeEdges) (destId : ℕ) : Bool :=
  ALL_EDGE_KINDS.any (fun ek => decide ((⟨destId, ek⟩ : Edge) ∈ n.edgeSet))

/-- Model of `Node::HasSelfLoop` (node.cpp line 70). -/
def HasSelfLoop (n : NodeEdges) : Bool :=
  HasConnection n n.nodeID

/-- Model of `Node::FindMergeableNeighbours` (node.cpp lines 143-153):
empty unless `numSelfEdges == 0` and `orderedEdges.size() == 2`;
otherwise the ordered edges whose destination is not a sentinel, in
order (`NodeNeighbour` carries the same data as the edge it was built
from). -/
def FindMergeableNeighbours (n : NodeEdges) : List Edge :=
  if n.numSelfEdges ≠ 0 ∨ n.orderedEdges.length ≠ 2 then []
  else n.orderedEdges.filter
    (fun e => !(decide (e.destId = MOCK_SOURCE_ID ∨ e.destId = MOCK_SINK_ID)))

/-- Operations on a node's edge state, for quantifying over call
sequences. -/
inductive EdgeOp where
  | emplace (destId : ℕ) (k : EK)
  | erase (destId : ℕ) (k : EK)
  | eraseAll (destId : ℕ)
  | clear
deriving DecidableEq

/-- Apply one edge operation. -/
def applyOp (n : NodeEdges) : EdgeOp → NodeEdges
  | .emplace d k => EmplaceEdge n d k
  | .erase d k => EraseEdge n d k
  | .eraseAll d => EraseEdgeAllKinds n d
  | .clear => ClearEdges n

/-- Apply a sequence of edge operations in order. -/
def applyOps (n : NodeEdges) (ops : List EdgeOp) : NodeEdges :=
  ops.foldl applyOp n

/-- Predicate on operations: an `EmplaceEdge` call whose destination is
the identity `id`. -/
def isSelfEmplace (id : ℕ) : EdgeOp → Bool
  | .emplace d _ => decide (d = id)
  | _ => false

/-- Predicate on operations: an `EmplaceEdge` call whose destination is a
sentinel. -/
def isMockEmplace : EdgeOp → Bool
  | .emplace d _ => decide (d = MOCK_SOURCE_ID ∨ d = MOCK_SINK_ID)
  | _ => false

/-! ### Node per-base vector lengths (node.cpp lines 11-36, 89-97)

The per-base vector classes (`Kmer`, `NodeQual`, `NodeCov`, `NodeLabel`,
`NodeHP`) live outside `src/`; only their lengths matter to the length
claims, so each vector is modelled by its length. -/

/-- Length state of a `Node`: lengths of `mer`, `quals`, `covs`, `labels`,
and of `hpData` when present (`none` models `hpData.IsEmpty()`). -/
structure NodeAnn where
  merLen : ℕ
  qualsLen : ℕ
  covsLen : ℕ
  labelsLen : ℕ
  hpLen : Option ℕ
deriving DecidableEq

/-- Model of the `Node(const Kmer&)` constructor (node.cpp line 11):
`quals`, `covs` and `labels` are constructed with length `k.Length()`;
`hpData` starts empty. -/
def NodeCtor (kmerLength : ℕ) : NodeAnn :=
  ⟨kmerLength, kmerLength, kmerLength, kmerLength, none⟩

/-- Modelled from the spec: the length of any per-base vector produced by
a buddy merge of vectors of lengths `a` and `b` with `k - 1` overlap is
`a + b - k + 1` (spec section 4.4: the overlapping region is aggregated,
the rest appended). -/
def mergeLen (a b k : ℕ) : ℕ :=
  a + b - k + 1

/-- Model of `Node::UpdateHPInfo` (node.cpp lines 89-97) at the level of
vector lengths: when `hpData` is empty it is materialized from the current
`covs` geometry; the subsequent update preserves its length. -/
def UpdateHPInfoAnn (n : NodeAnn) : NodeAnn :=
  { n with hpLen := some (n.hpLen.getD n.covsLen) }

/-- Model of `Node::UpdateQual` / `UpdateLabel` / `UpdateCovInfo`
(node.cpp lines 86-87, 99-103) at the level of vector lengths: modelled
from the spec, these pushes and coverage updates preserve every vector
length (spec section 4.2 requires per-base inputs of matching length). -/
def UpdateAnn (n : NodeAnn) : NodeAnn :=
  n

/-- Model of `Node::MergeBuddy` (node.cpp lines 19-36) at the level of
vector lengths, preserving the statement order of the source: `mer`,
`quals`, `covs` and `labels` merge first; then, when either side's
`hpData` is non-empty, an empty own `hpData` is materialized from `covs`
— which at that point in the source is the ALREADY MERGED `covs` — an
empty buddy `hpData` is materialized from the buddy's (unmerged) `covs`,
and the two are merged. -/
def MergeBuddyAnn (n buddy : NodeAnn) (k : ℕ) : NodeAnn :=
  let merLen := mergeLen n.merLen buddy.merLen k
  let qualsLen := mergeLen n.qualsLen buddy.qualsLen k
  let covsLen := mergeLen n.covsLen buddy.covsLen k
  let labelsLen := mergeLen n.labelsLen buddy.labelsLen k
  let hpLen :=
    if n.hpLen.isSome || buddy.hpLen.isSome then
      some (mergeLen (n.hpLen.getD covsLen) (buddy.hpLen.getD buddy.covsLen) k)
    else none
  ⟨merLen, qualsLen, covsLen, labelsLen, hpLen⟩

/-! ### Region string parsing (window_builder.cpp lines 117-145) -/

/-- Model of `absl::StrSplit` with a character-class delimiter and the
default (empty pieces kept) policy: split at every delimiter occurrence.
Splitting the empty string yields one empty piece. -/
def splitOnChars (delims : List Char) : List Char → List (List Char)
  | [] => [[]]
  | c :: rest =>
    if c ∈ delims then [] :: splitOnChars delims rest
    else
      match splitOnChars delims rest with
      | [] => [[c]]
      | t :: ts => (c :: t) :: ts

/-- Helper for `strtoull10`: consume leading decimal digits. -/
def leadingNatAux : ℕ → List Char → ℕ
  | acc, [] => acc
  | acc, c :: rest =>
    if c.isDigit then leadingNatAux (10 * acc + (c.toNat - 48)) rest else acc

/-- Model of C `strtoull(tok, nullptr, 10)` for the token shapes this
development evaluates (a possibly empty run of decimal digits, possibly
followed by non-digits): the value of the longest leading digit run, `0`
when there is none.  Leading whitespace, signs and overflow wrap-around
are not modelled (no evaluated input uses them). -/
def strtoull10 (s : List Char) : ℕ :=
  leadingNatAux 0 s

/-- The `INT64_MAX` constant. -/
def INT64_MAX : ℤ :=
  2 ^ 63 - 1

/-- Model of `WindowBuilder::ParseRegion` (window_builder.cpp lines
117-145): split on `:` and `-`; reject only an empty token list or more
than three tokens; 1-based start converted to 0-based and clamped at 0;
missing end means `INT64_MAX`.  The returned triple is (chromosome,
0-based start, 0-based end). -/
def ParseRegion (regionStr : List Char) : Except Status (List Char × ℤ × ℤ) :=
  let tokens := splitOnChars [':', '-'] regionStr
  if tokens.length = 0 ∨ tokens.length > 3 then .error .invalidArgument
  else
    let winStart : ℤ :=
      if tokens.length ≥ 2 then
        let t : ℤ := (strtoull10 (tokens.getD 1 []) : ℤ) - 1
        if t < 0 then 0 else t
      else 0
    let winEnd : ℤ :=
      if tokens.length = 3 then (strtoull10 (tokens.getD 2 []) : ℤ) - 1 else INT64_MAX
    .ok (tokens.getD 0 [], winStart, winEnd)

/-! ### BED file parsing (window_builder.cpp lines 147-179) -/

/-- Digit-run parser underlying the `SimpleAtoi` model: `some` of the
value iff the string is a non-empty run of decimal digits. -/
def parseAllDigits (s : List Char) : Option ℕ :=
  if s ≠ [] ∧ s.all Char.isDigit then some (strtoull10 s) else none

/-- Model of `absl::SimpleAtoi<int64>` for in-range inputs: an optional
single sign followed by a non-empty digit run parses to its value;
anything else fails.  Overflow is not modelled (no evaluated input
overflows). -/
def simpleAtoi (s : List Char) : Option ℤ :=
  match s with
  | '+' :: rest => (parseAllDigits rest).map (fun n => (n : ℤ))
  | '-' :: rest => (parseAllDigits rest).map (fun n => -(n : ℤ))
  | _ => (parseAllDigits s).map (fun n => (n : ℤ))

/-- Model of `WindowBuilder::ParseBed` (window_builder.cpp lines 147-179)
applied to the file's list of lines: each line is split on tabs with
`absl::SkipEmpty` (empty pieces dropped, so a blank line yields zero
tokens); a line with a token count other than three is an
`InvalidArgument` error; a three-token line whose start or end fails
integer parsing is an `Internal` error; otherwise the line contributes
(chrom, 0-based start, 0-based end). -/
def ParseBed : List (List Char) → Except Status (List (List Char × ℤ × ℤ))
  | [] => .ok []
  | line :: rest =>
    let tokens := (splitOnChars ['\t'] line).filter (fun t => t ≠ [])
    match tokens with
    | [chrom, startTok, endTok] =>
      match simpleAtoi startTok, simpleAtoi endTok with
      | some ws, some we => (ParseBed rest).map (fun rs => (chrom, ws, we) :: rs)
      | _, _ => .error .internal
    | _ => .error .invalidArgument

/-! ### BuildWindows (window_builder.cpp lines 45-109) -/

/-- Genomic window of `WindowBuilder`: chromosome, 0-based half-open
start and end, and the window index assigned after sorting (zero until
assigned, like a default-constructed `RefWindow`). -/
structure RefWindow where
  chrom : String
  startPos : ℤ
  endPos : ℤ
  windowIndex : ℕ
deriving DecidableEq

/-- Modelled from the spec: `RefWindow::Length` (defined outside `src/`)
is the length of the 0-based half-open interval, `end - start`. -/
def RefWindow.lengthI (w : RefWindow) : ℤ :=
  w.endPos - w.startPos

/-- Model of `WindowBuilder::PadWindow` (window_builder.cpp lines
181-196) given the contig length of the window's chromosome: extend both
ends by `regionPadding`, clamping to `[0, contigLen]`. -/
def PadWindow (regionPadding : ℕ) (contigLen : ℤ) (w : RefWindow) : RefWindow :=
  let startUnderflows := w.startPos < (regionPadding : ℤ)
  let endOverflows := w.endPos ≥ contigLen ∨ contigLen - w.endPos < (regionPadding : ℤ)
  { w with
    startPos := if startUnderflows then 0 else w.startPos - (regionPadding : ℤ),
    endPos := if endOverflows then contigLen else w.endPos + (regionPadding : ℤ) }

/-- Model of the slicing `while (currWindowStart < maxWindowPos)` loop of
`BuildWindows` (window_builder.cpp lines 72-90): emit a window of length
`windowLength` and advance by `stepSize`.  The loop is driven by explicit
fuel; the callers pass enough fuel to exhaust the loop whenever
`stepSize ≥ 1` (with `stepSize = 0` the C++ loop never terminates).
Modelled from the spec: the reference sequence fetch
(`refRdr.RegionSequence`) succeeds for every window, so the
skip-truncated branch is never taken and sequence content is dropped. -/
def sliceWindows (stepSize : ℤ) (windowLength : ℕ) (chrom : String) :
    ℕ → ℤ → ℤ → List RefWindow
  | 0, _, _ => []
  | fuel + 1, currStart, maxPos =>
    if currStart < maxPos then
      ⟨chrom, currStart, currStart + (windowLength : ℤ), 0⟩ ::
        sliceWindows stepSize windowLength chrom fuel (currStart + stepSize) maxPos
    else []

/-- Windows generated for one input region (body of the `for` loop of
`BuildWindows`, window_builder.cpp lines 52-91): pad the region; if the
padded region is no longer than `windowLength` emit it whole, otherwise
slice from the padded start up to the ORIGINAL region's end. -/
def windowsForRegion (contigLen : String → ℤ) (regionPadding windowLength : ℕ)
    (stepSize : ℤ) (inRegion : RefWindow) : List RefWindow :=
  let region := PadWindow regionPadding (contigLen inRegion.chrom) inRegion
  if region.lengthI ≤ (windowLength : ℤ) then [region]
  else
    sliceWindows stepSize windowLength region.chrom
      ((inRegion.endPos - region.startPos).toNat + 1) region.startPos inRegion.endPos

/-- Windows generated for a list of input regions, in input order. -/
def windowsForRegions (contigLen : String → ℤ) (regionPadding windowLength : ℕ)
    (stepSize : ℤ) : List RefWindow → List RefWindow
  | [] => []
  | r :: rest =>
    windowsForRegion contigLen regionPadding windowLength stepSize r ++
      windowsForRegions contigLen regionPadding windowLength stepSize rest

/-- Model of the sort comparator of `BuildWindows` (window_builder.cpp
lines 93-97) as a total order: lexicographic on (contig ID, start, end).
The contig-ID map is modelled as a function and assumed injective on the
contig names in use (as `FastaReader::ContigIDs` produces), so comparing
IDs subsumes the source's `Chromosome() != Chromosome()` guard. -/
def winLE (contigIds : String → ℤ) (a b : RefWindow) : Prop :=
  contigIds a.chrom < contigIds b.chrom ∨
    (contigIds a.chrom = contigIds b.chrom ∧
      (a.startPos < b.startPos ∨ (a.startPos = b.startPos ∧ a.endPos ≤ b.endPos)))

instance (contigIds : String → ℤ) : DecidableRel (winLE contigIds) := fun a b => by
  unfold winLE; infer_instance

instance (contigIds : String → ℤ) : IsTotal RefWindow (winLE contigIds) := ⟨by
  intro a b
  unfold winLE
  omega⟩

instance (contigIds : String → ℤ) : IsTrans RefWindow (winLE contigIds) := ⟨by
  intro a b c hab hbc
  unfold winLE at hab hbc ⊢
  omega⟩

/-- Model of the index-assigning `for_each` of `BuildWindows`
(window_builder.cpp lines 102-106): each window in order receives the
counter's current value and the counter is incremented.  The counter
`currWindowIdx` is a function-local STATIC in the source, so it persists
across calls; it is threaded here explicitly as `counter0`. -/
def assignIndices (counter0 : ℕ) : List RefWindow → List RefWindow
  | [] => []
  | w :: ws => { w with windowIndex := counter0 } :: assignIndices (counter0 + 1) ws

/-- Model of one call to `WindowBuilder::BuildWindows` on its success
path (window_builder.cpp lines 45-109): generate windows per input
region, sort by the comparator, assign indices starting from the static
counter's current value, and return the windows together with the
counter's new value.  Error paths (no input regions, contig missing from
the reference, truncated sequence surfaced as an error) are not taken on
the inputs this development evaluates. -/
def BuildWindowsCall (contigIds : String → ℤ) (contigLen : String → ℤ)
    (regionPadding windowLength pctOverlap : ℕ) (inputRegions : List RefWindow)
    (counter0 : ℕ) : List RefWindow × ℕ :=
  let stepSize := StepSize pctOverlap windowLength
  let gen := windowsForRegions contigLen regionPadding windowLength stepSize inputRegions
  let sorted := gen.insertionSort (winLE contigIds)
  (assignIndices counter0 sorted, counter0 + sorted.length)

/-! ## Theorems -/

/-! ### Arithmetic helpers -/

/-- Closed form of `StepSize` over the naturals: round-half-away of
`(100 - pct)·L / 10000`, times 100. -/
theorem StepSize_eq (pct L : ℕ) :
    StepSize pct L = ((((100 - pct) * L + 5000) / 10000 * 100 : ℕ) : ℤ) := by
  unfold StepSize
  rw [round_eq]
  obtain ⟨a, ha⟩ : ∃ a, 100 - pct = a := ⟨_, rfl⟩
  rw [ha]
  have h1 : (((a : ℕ) : ℚ) / 100) * (L : ℚ) / 100 + 1 / 2
      = ((a * L * 2 + 10000 : ℕ) : ℚ) / ((20000 : ℕ) : ℚ) := by
    push_cast
    ring
  rw [h1, Rat.floor_natCast_div_natCast]
  obtain ⟨n, hn⟩ : ∃ n, a * L = n := ⟨_, rfl⟩
  rw [hn]
  omega

/-- Rational ceiling of a quotient of naturals is ceiling division. -/
theorem ceil_natCast_div (M s : ℕ) (hs : 0 < s) :
    ⌈(M : ℚ) / (s : ℚ)⌉ = (((M + s - 1) / s : ℕ) : ℤ) := by
  have hsQ : (0 : ℚ) < (s : ℚ) := by exact_mod_cast hs
  have h := Nat.div_add_mod (M + s - 1) s
  have hr := Nat.mod_lt (M + s - 1) hs
  set z := (M + s - 1) / s with hz
  set r := (M + s - 1) % s with hrr
  have h1 : M + s - 1 < s * z + s := by
    rw [← h]; exact Nat.add_lt_add_left hr _
  have h2 : s * z ≤ M + s - 1 := h ▸ Nat.le_add_right _ _
  have h3 : M + s ≤ s * z + s := by
    calc M + s = M + s - 1 + 1 := by omega
    _ ≤ s * z + s := h1
  have hM1 : M ≤ s * z := Nat.le_of_add_le_add_right h3
  have hM2 : s * z < M + s := lt_of_le_of_lt h2 (by omega : M + s - 1 < M + s)
  rw [Int.ceil_eq_iff]
  constructor
  · rw [lt_div_iff₀ hsQ]
    have hc : (s : ℚ) * (z : ℚ) < (M : ℚ) + (s : ℚ) := by exact_mod_cast hM2
    push_cast
    linarith [hc]
  · rw [div_le_iff₀ hsQ]
    have hc : (M : ℚ) ≤ (s : ℚ) * (z : ℚ) := by exact_mod_cast hM1
    push_cast
    linarith [hc]

/-- The cast of `StepSize` into `ℚ` equals the cast of its `toNat` (the
step is non-negative). -/
theorem stepSize_cast_toNat (po wl : ℕ) :
    ((StepSize po wl : ℤ) : ℚ) = (((StepSize po wl).toNat : ℕ) : ℚ) := by
  have h : ((StepSize po wl).toNat : ℤ) = StepSize po wl := by
    rw [StepSize_eq]
    exact Int.toNat_of_nonneg (by positivity)
  rw [← h]
  push_cast
  rfl

/-- `StepSize` positivity transfers to its `toNat`. -/
theorem stepSize_toNat_pos (po wl : ℕ) (hs : 0 < StepSize po wl) :
    0 < (StepSize po wl).toNat := by
  omega

/-- Closed form of `RequiredBufferWindows` over the naturals: three times
the ceiling division of the flank length by the step. -/
theorem requiredBufferWindows_closed (mi wl po : ℕ) (hs : 0 < StepSize po wl) :
    RequiredBufferWindows mi wl po
      = 3 * ((max mi wl + (StepSize po wl).toNat - 1) / (StepSize po wl).toNat) := by
  unfold RequiredBufferWindows
  rw [stepSize_cast_toNat, ceil_natCast_div _ _ (stepSize_toNat_pos po wl hs)]
  have h : (3 : ℤ) * (((max mi wl + (StepSize po wl).toNat - 1) / (StepSize po wl).toNat : ℕ) : ℤ)
      = (((3 * ((max mi wl + (StepSize po wl).toNat - 1) / (StepSize po wl).toNat) : ℕ)) : ℤ) := by
    push_cast
    ring
  rw [h, Int.toNat_natCast]

/-- Closed form of `SpecBufferWindows` over the naturals: ceiling
division of three times the flank length by the step. -/
theorem specBufferWindows_closed (mi wl po : ℕ) (hs : 0 < StepSize po wl) :
    SpecBufferWindows mi wl po
      = (3 * max mi wl + (StepSize po wl).toNat - 1) / (StepSize po wl).toNat := by
  unfold SpecBufferWindows
  have h3 : (3 : ℚ) * ((max mi wl : ℕ) : ℚ) = ((3 * max mi wl : ℕ) : ℚ) := by
    push_cast
    ring
  rw [stepSize_cast_toNat, mul_div_assoc, ← mul_div_assoc, h3,
    ceil_natCast_div _ _ (stepSize_toNat_pos po wl hs), Int.toNat_natCast]

/-! ### Claim C10: StepSize rounding -/

/-- Claim C10: `StepSize(pct, L)` is a non-negative integer multiple of
100 for every `pct ∈ [0, 99]` and `L ≥ 100`; `StepSize(0, 600) = 600`,
`StepSize(50, 600) = 300`, `StepSize(25, 600) = 500` (450 rounded to the
nearest multiple of 100) and `StepSize(99, 600) = 0`. -/
theorem C10_stepSize_rounding :
    (∀ pct L : ℕ, pct ≤ 99 → 100 ≤ L →
      0 ≤ StepSize pct L ∧ (100 : ℤ) ∣ StepSize pct L) ∧
    StepSize 0 600 = 600 ∧ StepSize 50 600 = 300 ∧
    StepSize 25 600 = 500 ∧ StepSize 99 600 = 0 := by
  refine ⟨fun pct L _ _ => ⟨?_, ?_⟩, ?_, ?_, ?_, ?_⟩
  · rw [StepSize_eq]
    positivity
  · rw [StepSize_eq]
    exact ⟨((((100 - pct) * L + 5000) / 10000 : ℕ) : ℤ), by push_cast; ring⟩
  all_goals rw [StepSize_eq]; norm_num

/-- Witness for C10 at `pct = 25`, `L = 600`. -/
theorem C10_stepSize_rounding_witness :
    0 ≤ StepSize 25 600 ∧ (100 : ℤ) ∣ StepSize 25 600 :=
  C10_stepSize_rounding.1 25 600 (by norm_num) (by norm_num)

/-! ### Claim C2: look-ahead buffer formula -/

/-- Counterexample to claim C2: at `maxIndelLen = 250`, `windowLen = 600`,
`pctOverlap = 25` the step is `500 > 0`, the code computes
`3 · ⌈600/500⌉ = 6`, but the spec formula `⌈3 · 600/500⌉` gives 4. -/
theorem C2_buffer_formula_cex :
    0 < StepSize 25 600 ∧ RequiredBufferWindows 250 600 25 = 6 ∧
    SpecBufferWindows 250 600 25 = 4 ∧
    RequiredBufferWindows 250 600 25 ≠ SpecBufferWindows 250 600 25 := by
  have hs : StepSize 25 600 = (500 : ℤ) := by rw [StepSize_eq]; norm_num
  have hpos : 0 < StepSize 25 600 := by rw [hs]; norm_num
  have h1 : RequiredBufferWindows 250 600 25 = 6 := by
    rw [requiredBufferWindows_closed 250 600 25 hpos, hs]
    decide
  have h2 : SpecBufferWindows 250 600 25 = 4 := by
    rw [specBufferWindows_closed 250 600 25 hpos, hs]
    decide
  exact ⟨hpos, h1, h2, by omega⟩

/-- Amended claim C2: for every parameter combination with positive step,
the look-ahead buffer computed by the driver equals
`3 · ⌈max(maxIndelLen, windowLen) / stepSize⌉` (three TIMES the ceiling
of the quotient, not the ceiling of three times the quotient). -/
theorem C2_buffer_formula_amended (maxIndelLength windowLength pctOverlap : ℕ)
    (hs : 0 < StepSize pctOverlap windowLength) :
    RequiredBufferWindows maxIndelLength windowLength pctOverlap
      = 3 * ((max maxIndelLength windowLength + (StepSize pctOverlap windowLength).toNat - 1)
              / (StepSize pctOverlap windowLength).toNat) :=
  requiredBufferWindows_closed maxIndelLength windowLength pctOverlap hs

/-- Witness for the amended C2 at `(250, 600, 25)`. -/
theorem C2_buffer_formula_amended_witness :
    RequiredBufferWindows 250 600 25
      = 3 * ((max 250 600 + (StepSize 25 600).toNat - 1) / (StepSize 25 600).toNat) :=
  C2_buffer_formula_amended 250 600 25
    (by rw [StepSize_eq]; norm_num)

/-! ### Claim C1: driver flush order on the spec scenario -/

/-- Counterexample to claim C1: with `N = 5`, `B = 1` and completions
arriving in order 2, 0, 1, 4, 3, the driver loop does NOT emit
`FlushWindow` calls 0, 1, 2, 3, 4 (it emits only 0, 1, 2, 3; window 4 is
left to `FlushAll`), and the first flush (of index 0) happens already
when completion 0 arrives, before completion 1. -/
theorem C1_flush_order_cex :
    (driverRun 5 1 [2, 0, 1, 4, 3]).flushes ≠ [0, 1, 2, 3, 4] ∧
    (driverRun 5 1 [2, 0]).flushes = [0] := by
  decide

/-- Amended claim C1: with `N = 5`, `B = 1` and completions in order
2, 0, 1, 4, 3 the driver emits `FlushWindow` calls in order 0, 1, 2, 3
and leaves window 4 to the final `FlushAll`; no flush occurs after
completion 2 alone; the first flush (of index 0) occurs as soon as
completion 0 arrives, because on each completion the driver flushes
window `idxToFlush` at most once, when all of
`done[0 .. idxToFlush + B - 1]` hold (a prefix of length
`idxToFlush + B`), and then advances `idxToFlush` by one. -/
theorem C1_flush_order_amended :
    (driverRun 5 1 [2]).flushes = [] ∧
    (driverRun 5 1 [2, 0]).flushes = [0] ∧
    (driverRun 5 1 [2, 0, 1]).flushes = [0, 1] ∧
    (driverRun 5 1 [2, 0, 1, 4]).flushes = [0, 1, 2] ∧
    (driverRun 5 1 [2, 0, 1, 4, 3]).flushes = [0, 1, 2, 3] := by
  decide

/-! ### Node edge helpers -/

/-- Edge sorting is a permutation of its input. -/
theorem sortEdges_perm (l : List Edge) : (sortEdges l).Perm l :=
  List.perm_insertionSort Edge.le l

/-- Edge sorting sorts. -/
theorem sortEdges_sorted (l : List Edge) : (sortEdges l).Sorted Edge.le :=
  List.sorted_insertionSort Edge.le l

/-- Sorting identifies permutation-equal edge lists. -/
theorem sortEdges_congr {l1 l2 : List Edge} (h : l1.Perm l2) :
    sortEdges l1 = sortEdges l2 :=
  List.eq_of_perm_of_sorted
    ((sortEdges_perm l1).trans (h.trans (sortEdges_perm l2).symm))
    (sortEdges_sorted l1) (sortEdges_sorted l2)

/-- `EmplaceEdge` keeps the node identity. -/
theorem nodeID_emplace (n : NodeEdges) (d : ℕ) (k : EK) :
    (EmplaceEdge n d k).nodeID = n.nodeID := by
  unfold EmplaceEdge
  by_cases hmem : (⟨d, k⟩ : Edge) ∈ n.edgeSet <;> simp [hmem]

/-- `EraseEdge` keeps the node identity. -/
theorem nodeID_erase (n : NodeEdges) (d : ℕ) (k : EK) :
    (EraseEdge n d k).nodeID = n.nodeID := by
  unfold EraseEdge
  by_cases hmem : (⟨d, k⟩ : Edge) ∈ n.edgeSet <;> simp [hmem]

/-- `EraseEdge(dest_id)` keeps the node identity. -/
theorem nodeID_eraseAll (n : NodeEdges) (d : ℕ) :
    (EraseEdgeAllKinds n d).nodeID = n.nodeID := by
  simp [EraseEdgeAllKinds, ALL_EDGE_KINDS, List.foldl, nodeID_erase]

/-- Every edge operation keeps the node identity. -/
theorem nodeID_applyOp (n : NodeEdges) (op : EdgeOp) :
    (applyOp n op).nodeID = n.nodeID := by
  cases op with
  | emplace d k => exact nodeID_emplace n d k
  | erase d k => exact nodeID_erase n d k
  | eraseAll d => exact nodeID_eraseAll n d
  | clear => rfl

/-- Every edge operation sequence keeps the node identity. -/
theorem nodeID_applyOps (ops : List EdgeOp) (n : NodeEdges) :
    (applyOps n ops).nodeID = n.nodeID := by
  induction ops generalizing n with
  | nil => rfl
  | cons op ops ih =>
    have h1 : applyOps n (op :: ops) = applyOps (applyOp n op) ops := rfl
    rw [h1, ih, nodeID_applyOp]

/-- `EmplaceEdge` increments `numSelfEdges` exactly when the destination
is the node's own identity, whether or not the edge was already present. -/
theorem numSelf_emplace (n : NodeEdges) (d : ℕ) (k : EK) :
    (EmplaceEdge n d k).numSelfEdges
      = n.numSelfEdges + (if d = n.nodeID then 1 else 0) := by
  unfold EmplaceEdge
  by_cases hd : d = n.nodeID
  · subst hd
    by_cases hmem : (⟨n.nodeID, k⟩ : Edge) ∈ n.edgeSet <;> simp [hmem]
  · by_cases hmem : (⟨d, k⟩ : Edge) ∈ n.edgeSet <;> simp [hmem, hd]

/-- `EraseEdge` never changes `numSelfEdges`. -/
theorem numSelf_erase (n : NodeEdges) (d : ℕ) (k : EK) :
    (EraseEdge n d k).numSelfEdges = n.numSelfEdges := by
  unfold EraseEdge
  by_cases hmem : (⟨d, k⟩ : Edge) ∈ n.edgeSet <;> simp [hmem]

/-- `EraseEdge(dest_id)` never changes `numSelfEdges`. -/
theorem numSelf_eraseAll (n : NodeEdges) (d : ℕ) :
    (EraseEdgeAllKinds n d).numSelfEdges = n.numSelfEdges := by
  simp [EraseEdgeAllKinds, ALL_EDGE_KINDS, List.foldl, numSelf_erase]

/-- `EmplaceEdge` increments `numMockEdges` exactly when the destination
is a sentinel, whether or not the edge was already present. -/
theorem numMock_emplace (n : NodeEdges) (d : ℕ) (k : EK) :
    (EmplaceEdge n d k).numMockEdges
      = n.numMockEdges + (if d = MOCK_SOURCE_ID ∨ d = MOCK_SINK_ID then 1 else 0) := by
  unfold EmplaceEdge
  by_cases hmem : (⟨d, k⟩ : Edge) ∈ n.edgeSet <;>
    by_cases hd : d = MOCK_SOURCE_ID ∨ d = MOCK_SINK_ID <;> simp [hmem, hd]

/-- `EraseEdge` never changes `numMockEdges`. -/
theorem numMock_erase (n : NodeEdges) (d : ℕ) (k : EK) :
    (EraseEdge n d k).numMockEdges = n.numMockEdges := by
  unfold EraseEdge
  by_cases hmem : (⟨d, k⟩ : Edge) ∈ n.edgeSet <;> simp [hmem]

/-- `EraseEdge(dest_id)` never changes `numMockEdges`. -/
theorem numMock_eraseAll (n : NodeEdges) (d : ℕ) :
    (EraseEdgeAllKinds n d).numMockEdges = n.numMockEdges := by
  simp [EraseEdgeAllKinds, ALL_EDGE_KINDS, List.foldl, numMock_erase]

/-- One operation changes `numSelfEdges` by exactly its self-emplace
count. -/
theorem numSelf_applyOp (n : NodeEdges) (op : EdgeOp) :
    (applyOp n op).numSelfEdges
      = n.numSelfEdges + (if isSelfEmplace n.nodeID op then 1 else 0) := by
  cases op with
  | emplace d k => simp [applyOp, numSelf_emplace, isSelfEmplace]
  | erase d k => simp [applyOp, numSelf_erase, isSelfEmplace]
  | eraseAll d => simp [applyOp, numSelf_eraseAll, isSelfEmplace]
  | clear => simp [applyOp, ClearEdges, isSelfEmplace]

/-- One operation changes `numMockEdges` by exactly its mock-emplace
count. -/
theorem numMock_applyOp (n : NodeEdges) (op : EdgeOp) :
    (applyOp n op).numMockEdges
      = n.numMockEdges + (if isMockEmplace op then 1 else 0) := by
  cases op with
  | emplace d k => simp [applyOp, numMock_emplace, isMockEmplace]
  | erase d k => simp [applyOp, numMock_erase, isMockEmplace]
  | eraseAll d => simp [applyOp, numMock_eraseAll, isMockEmplace]
  | clear => simp [applyOp, ClearEdges, isMockEmplace]

/-- `numSelfEdges` after a sequence equals its start value plus the
number of `EmplaceEdge` calls whose destination is the own identity. -/
theorem numSelf_applyOps (ops : List EdgeOp) (n : NodeEdges) :
    (applyOps n ops).numSelfEdges
      = n.numSelfEdges + ops.countP (isSelfEmplace n.nodeID) := by
  induction ops generalizing n with
  | nil => simp [applyOps]
  | cons op ops ih =>
    have h1 : applyOps n (op :: ops) = applyOps (applyOp n op) ops := rfl
    rw [h1, ih, numSelf_applyOp, nodeID_applyOp, List.countP_cons]
    omega

/-- `numMockEdges` after a sequence equals its start value plus the
number of `EmplaceEdge` calls whose destination is a sentinel. -/
theorem numMock_applyOps (ops : List EdgeOp) (n : NodeEdges) :
    (applyOps n ops).numMockEdges
      = n.numMockEdges + ops.countP isMockEmplace := by
  induction ops generalizing n with
  | nil => simp [applyOps]
  | cons op ops ih =>
    have h1 : applyOps n (op :: ops) = applyOps (applyOp n op) ops := rfl
    rw [h1, ih, numMock_applyOp, List.countP_cons]
    omega

/-- `HasConnection` holds exactly when some edge of the set targets the
queried destination (the four kinds are exhaustive). -/
theorem hasConnection_iff (n : NodeEdges) (d : ℕ) :
    HasConnection n d = true ↔ ∃ e ∈ n.edgeSet, e.destId = d := by
  unfold HasConnection ALL_EDGE_KINDS
  simp only [List.any_eq_true, decide_eq_true_eq]
  constructor
  · rintro ⟨ek, _, he⟩
    exact ⟨⟨d, ek⟩, he, rfl⟩
  · rintro ⟨⟨d', k⟩, he, hd⟩
    cases hd
    refine ⟨k, ?_, he⟩
    cases k <;> simp

/-- `EmplaceEdge` keeps `orderedEdges` the sort of a duplicate-free
`edgeSet`. -/
theorem inv_emplace (n : NodeEdges) (d : ℕ) (k : EK)
    (h1 : n.orderedEdges = sortEdges n.edgeSet) (h2 : n.edgeSet.Nodup) :
    (EmplaceEdge n d k).orderedEdges = sortEdges (EmplaceEdge n d k).edgeSet ∧
      (EmplaceEdge n d k).edgeSet.Nodup := by
  unfold EmplaceEdge
  by_cases hmem : (⟨d, k⟩ : Edge) ∈ n.edgeSet
  · refine ⟨?_, ?_⟩
    · simpa [hmem] using h1
    · simpa [hmem] using h2
  · simp only [hmem, if_false]
    constructor
    · show sortEdges (n.orderedEdges ++ [⟨d, k⟩]) = sortEdges (n.edgeSet ++ [⟨d, k⟩])
      rw [h1]
      exact sortEdges_congr ((sortEdges_perm n.edgeSet).append_right _)
    · show (n.edgeSet ++ [(⟨d, k⟩ : Edge)]).Nodup
      rw [List.nodup_append]
      refine ⟨h2, List.nodup_singleton _, fun x hx hy => ?_⟩
      simp only [List.mem_singleton] at hy
      subst hy
      exact hmem hx

/-- `EraseEdge` keeps `orderedEdges` the sort of a duplicate-free
`edgeSet`. -/
theorem inv_erase (n : NodeEdges) (d : ℕ) (k : EK)
    (h1 : n.orderedEdges = sortEdges n.edgeSet) (h2 : n.edgeSet.Nodup) :
    (EraseEdge n d k).orderedEdges = sortEdges (EraseEdge n d k).edgeSet ∧
      (EraseEdge n d k).edgeSet.Nodup := by
  unfold EraseEdge
  by_cases hmem : (⟨d, k⟩ : Edge) ∈ n.edgeSet
  · refine ⟨?_, ?_⟩
    · simp [hmem]
    · simpa [hmem] using h2.erase (⟨d, k⟩ : Edge)
  · refine ⟨?_, ?_⟩
    · simpa [hmem] using h1
    · simpa [hmem] using h2

/-- Every operation keeps `orderedEdges` the sort of a duplicate-free
`edgeSet`. -/
theorem inv_applyOp (n : NodeEdges) (op : EdgeOp)
    (h1 : n.orderedEdges = sortEdges n.edgeSet) (h2 : n.edgeSet.Nodup) :
    (applyOp n op).orderedEdges = sortEdges (applyOp n op).edgeSet ∧
      (applyOp n op).edgeSet.Nodup := by
  cases op with
  | emplace d k => exact inv_emplace n d k h1 h2
  | erase d k => exact inv_erase n d k h1 h2
  | eraseAll d =>
    have i1 := inv_erase n d .FF h1 h2
    have i2 := inv_erase _ d .FR i1.1 i1.2
    have i3 := inv_erase _ d .RF i2.1 i2.2
    have i4 := inv_erase _ d .RR i3.1 i3.2
    simpa [applyOp, EraseEdgeAllKinds, ALL_EDGE_KINDS] using i4
  | clear =>
    constructor
    · show ([] : List Edge) = sortEdges []
      rfl
    · exact List.nodup_nil

/-- Every operation sequence keeps `orderedEdges` the sort of a
duplicate-free `edgeSet`. -/
theorem inv_applyOps (ops : List EdgeOp) (n : NodeEdges)
    (h1 : n.orderedEdges = sortEdges n.edgeSet) (h2 : n.edgeSet.Nodup) :
    (applyOps n ops).orderedEdges = sortEdges (applyOps n ops).edgeSet ∧
      (applyOps n ops).edgeSet.Nodup := by
  induction ops generalizing n with
  | nil => exact ⟨h1, h2⟩
  | cons op ops ih =>
    have h := inv_applyOp n op h1 h2
    exact ih (applyOp n op) h.1 h.2

/-! ### Claim C3: edge counters and self-loop predicate -/

/-- Counterexample to claim C3: after `EmplaceEdge(5, FF)` followed by
`EraseEdge(5, FF)` on a node with identity 5, the edge set is empty and
`HasSelfLoop()` is false, yet `numSelfEdges = 1` (erase never decrements
the counters); and two duplicate self-emplaces leave `numSelfEdges = 2`
with a single self edge in the set. -/
theorem C3_self_count_cex :
    HasSelfLoop (applyOps (initNode 5) [.emplace 5 .FF, .erase 5 .FF]) = false ∧
    (applyOps (initNode 5) [.emplace 5 .FF, .erase 5 .FF]).numSelfEdges = 1 ∧
    (applyOps (initNode 5) [.emplace 5 .FF, .erase 5 .FF]).edgeSet = [] ∧
    (applyOps (initNode 5) [.emplace 5 .FF, .emplace 5 .FF]).numSelfEdges = 2 ∧
    (applyOps (initNode 5) [.emplace 5 .FF, .emplace 5 .FF]).edgeSet.length = 1 := by
  decide

/-- Amended claim C3: for every node and operation sequence,
`numSelfEdges` equals the number of `EmplaceEdge` CALLS whose destination
equals the own identity and `numMockEdges` the number of `EmplaceEdge`
calls with a sentinel destination (duplicate emplaces count; `EraseEdge`
and `ClearEdges` never adjust the counters); `HasSelfLoop()` is true iff
some edge currently in `edgeSet` has destination equal to the own
identity (it is NOT in general equivalent to `numSelfEdges > 0`). -/
theorem C3_edge_counters_amended (id : ℕ) (ops : List EdgeOp) :
    (applyOps (initNode id) ops).numSelfEdges = ops.countP (isSelfEmplace id) ∧
    (applyOps (initNode id) ops).numMockEdges = ops.countP isMockEmplace ∧
    (HasSelfLoop (applyOps (initNode id) ops) = true ↔
      ∃ e ∈ (applyOps (initNode id) ops).edgeSet, e.destId = id) := by
  refine ⟨?_, ?_, ?_⟩
  · simpa [initNode] using numSelf_applyOps ops (initNode id)
  · simpa [initNode] using numMock_applyOps ops (initNode id)
  · unfold HasSelfLoop
    rw [nodeID_applyOps]
    exact hasConnection_iff _ id

/-! ### Claim C4: edge set equals ordered edges -/

/-- Claim C4: after every sequence of edge operations, `orderedEdges` is
a permutation of `edgeSet`, sorted by the `Edge` order, and `edgeSet`
holds no duplicates — i.e. `orderedEdges` is exactly the sorted
permutation of `edgeSet`. -/
theorem C4_ordered_edges_sorted (id : ℕ) (ops : List EdgeOp) :
    ((applyOps (initNode id) ops).orderedEdges).Perm
        (applyOps (initNode id) ops).edgeSet ∧
    ((applyOps (initNode id) ops).orderedEdges).Sorted Edge.le ∧
    ((applyOps (initNode id) ops).edgeSet).Nodup := by
  have h := inv_applyOps ops (initNode id) rfl List.nodup_nil
  refine ⟨?_, ?_, h.2⟩
  · rw [h.1]
    exact sortEdges_perm _
  · rw [h.1]
    exact sortEdges_sorted _

/-! ### Claim C5: mergeable neighbours -/

/-- Counterexample to claim C5: a node with two non-sentinel edges, one
additional sentinel edge and no self-edge has non-sentinel ordered edge
count 2, yet `FindMergeableNeighbours` returns the empty list, because
the source tests the TOTAL ordered edge count. -/
theorem C5_mergeable_neighbours_cex :
    FindMergeableNeighbours
      (applyOps (initNode 5) [.emplace 2 .FF, .emplace 3 .FF, .emplace MOCK_SINK_ID .FF]) = [] ∧
    (applyOps (initNode 5)
      [.emplace 2 .FF, .emplace 3 .FF, .emplace MOCK_SINK_ID .FF]).numSelfEdges = 0 ∧
    ((applyOps (initNode 5)
        [.emplace 2 .FF, .emplace 3 .FF, .emplace MOCK_SINK_ID .FF]).orderedEdges.filter
      (fun e => !(decide (e.destId = MOCK_SOURCE_ID ∨ e.destId = MOCK_SINK_ID)))).length = 2 := by
  decide

/-- Amended claim C5: `FindMergeableNeighbours(A)` returns exactly the
neighbours over A's non-sentinel edges when A's TOTAL ordered edge count
(sentinel edges included) is exactly two and `numSelfEdges = 0`, and the
empty list otherwise; in particular a node whose non-sentinel edge count
is two but which has an additional sentinel edge yields the empty list. -/
theorem C5_mergeable_neighbours_amended (n : NodeEdges) :
    (∀ e : Edge, e ∈ FindMergeableNeighbours n ↔
      (n.numSelfEdges = 0 ∧ n.orderedEdges.length = 2 ∧ e ∈ n.orderedEdges ∧
       e.destId ≠ MOCK_SOURCE_ID ∧ e.destId ≠ MOCK_SINK_ID)) ∧
    ((n.numSelfEdges ≠ 0 ∨ n.orderedEdges.length ≠ 2) →
      FindMergeableNeighbours n = []) := by
  unfold FindMergeableNeighbours
  by_cases hc : n.numSelfEdges ≠ 0 ∨ n.orderedEdges.length ≠ 2
  · refine ⟨?_, fun _ => by simp [hc]⟩
    intro e
    simp only [hc, if_true, List.not_mem_nil, false_iff]
    rintro ⟨hs, hl, -⟩
    rcases hc with hc | hc
    · exact hc hs
    · exact hc hl
  · push_neg at hc
    refine ⟨?_, fun h => ?_⟩
    · intro e
      simp [hc.1, hc.2, List.mem_filter, and_assoc, not_or]
    · rcases h with h | h
      · exact absurd hc.1 h
      · exact absurd hc.2 h

/-- Witness for the amended C5 on a concrete node (a fresh node has no
ordered edges, so the neighbour list is empty). -/
theorem C5_mergeable_neighbours_amended_witness :
    FindMergeableNeighbours (initNode 0) = [] :=
  (C5_mergeable_neighbours_amended (initNode 0)).2 (Or.inr (by decide))

/-! ### Claim C6: per-base vector length alignment -/

/-- Claim C6 failing input: merging a buddy that carries `hpData` into a
node whose own `hpData` is empty (both built from 5-mers, `k = 5`, a
compatible merge) yields `mer`, `quals`, `covs` and `labels` of the
expected common length 6, but `hpData` of base-dimension 7, because the
source materializes the empty side from the ALREADY MERGED `covs`
(length 6) and then merges the buddy's vector (length 5) on top of it.
Merging in the opposite direction (buddy's `hpData` empty) stays
aligned at 6. -/
theorem C6_hp_length_divergence :
    (MergeBuddyAnn (NodeCtor 5) (UpdateHPInfoAnn (NodeCtor 5)) 5).merLen = 6 ∧
    (MergeBuddyAnn (NodeCtor 5) (UpdateHPInfoAnn (NodeCtor 5)) 5).qualsLen = 6 ∧
    (MergeBuddyAnn (NodeCtor 5) (UpdateHPInfoAnn (NodeCtor 5)) 5).covsLen = 6 ∧
    (MergeBuddyAnn (NodeCtor 5) (UpdateHPInfoAnn (NodeCtor 5)) 5).labelsLen = 6 ∧
    (MergeBuddyAnn (NodeCtor 5) (UpdateHPInfoAnn (NodeCtor 5)) 5).hpLen = some 7 ∧
    (MergeBuddyAnn (NodeCtor 5) (UpdateHPInfoAnn (NodeCtor 5)) 5).hpLen ≠
      some (MergeBuddyAnn (NodeCtor 5) (UpdateHPInfoAnn (NodeCtor 5)) 5).merLen ∧
    (MergeBuddyAnn (UpdateHPInfoAnn (NodeCtor 5)) (NodeCtor 5) 5).hpLen = some 6 := by
  decide

/-! ### Claim C7: samtools region string parsing -/

/-- Counterexample to claim C7: the input `:` does NOT produce an
`InvalidArgument` error; it splits into two empty tokens, passes the
token-count check, and parses successfully to the empty chromosome name
with start 0 and end `INT64_MAX`. -/
theorem C7_parse_region_cex :
    ParseRegion (":".toList) = .ok ("".toList, 0, INT64_MAX) ∧
    (∀ st : Status, ParseRegion (":".toList) ≠ .error st) :=
  ⟨rfl, fun _ h => Except.noConfusion h⟩

/-- Amended claim C7: `ParseRegion` maps `chr1:100-200` to
`(chr1, 99, 199)`, `chr1:50` to `(chr1, 49, INT64_MAX)` and `chrX` to
`(chrX, 0, INT64_MAX)`; the input `:` is ACCEPTED as the empty
chromosome with `(0, INT64_MAX)` (its empty tokens parse as 0 and the
start clamps to 0); `InvalidArgument` is returned only when splitting on
`:` and `-` yields more than three tokens, as for `a:1-2-3`. -/
theorem C7_parse_region_amended :
    ParseRegion ("chr1:100-200".toList) = .ok ("chr1".toList, 99, 199) ∧
    ParseRegion ("chr1:50".toList) = .ok ("chr1".toList, 49, INT64_MAX) ∧
    ParseRegion ("chrX".toList) = .ok ("chrX".toList, 0, INT64_MAX) ∧
    ParseRegion (":".toList) = .ok ("".toList, 0, INT64_MAX) ∧
    ParseRegion ("a:1-2-3".toList) = .error .invalidArgument :=
  ⟨rfl, rfl, rfl, rfl, rfl⟩

/-! ### Claim C8: BED line parsing -/

/-- Counterexample to claim C8: a blank line is NOT skipped — after
splitting on tabs with empty pieces dropped it has zero columns, so
`ParseBed` returns an `InvalidArgument` error instead of an empty result
list. -/
theorem C8_parse_bed_cex :
    ParseBed ["".toList] = .error .invalidArgument ∧
    (∀ rs, ParseBed ["".toList] ≠ .ok rs) :=
  ⟨rfl, fun _ h => Except.noConfusion h⟩

/-- Amended claim C8: `ParseBed` does NOT skip blank lines — a blank
line has zero non-empty tab-separated columns and yields
`InvalidArgument`, as does any line whose count of NON-EMPTY
tab-separated columns differs from three (empty columns are dropped by
the splitter, so a line with an extra empty column is accepted);
a three-column line whose start or end fails integer parsing yields an
`Internal` error; every accepted line contributes its chromosome and
0-based half-open start and end. -/
theorem C8_parse_bed_amended :
    ParseBed ["".toList] = .error .invalidArgument ∧
    ParseBed ["a\t1".toList] = .error .invalidArgument ∧
    ParseBed ["a\t1\t2\t3".toList] = .error .invalidArgument ∧
    ParseBed ["chr1\tX\t200".toList] = .error .internal ∧
    ParseBed ["chr1\t100\t200".toList] = .ok [("chr1".toList, 100, 200)] ∧
    ParseBed ["a\t\t1\t2".toList] = .ok [("a".toList, 1, 2)] ∧
    ParseBed [] = .ok [] :=
  ⟨rfl, rfl, rfl, rfl, rfl, rfl, rfl⟩

/-! ### Claim C9: window ordering and index assignment -/

/-- Index assignment preserves the window count. -/
theorem assignIndices_length (c0 : ℕ) (ws : List RefWindow) :
    (assignIndices c0 ws).length = ws.length := by
  induction ws generalizing c0 with
  | nil => rfl
  | cons w ws ih => simp [assignIndices, ih]

/-- Index assignment writes the counter values `c0, c0+1, ...` in list
order. -/
theorem assignIndices_map (c0 : ℕ) (ws : List RefWindow) :
    (assignIndices c0 ws).map RefWindow.windowIndex = List.range' c0 ws.length := by
  induction ws generalizing c0 with
  | nil => rfl
  | cons w ws ih => simp [assignIndices, List.range', ih]

/-- Every window produced by index assignment keeps the coordinate
fields of some input window. -/
theorem assignIndices_mem (c0 : ℕ) (ws : List RefWindow) (y : RefWindow)
    (hy : y ∈ assignIndices c0 ws) :
    ∃ w ∈ ws, y.chrom = w.chrom ∧ y.startPos = w.startPos ∧ y.endPos = w.endPos := by
  induction ws generalizing c0 with
  | nil => simp [assignIndices] at hy
  | cons w ws ih =>
    simp only [assignIndices, List.mem_cons] at hy
    rcases hy with hy | hy
    · exact ⟨w, List.mem_cons_self _ _, by simp [hy]⟩
    · obtain ⟨w', hw', h⟩ := ih (c0 + 1) hy
      exact ⟨w', List.mem_cons_of_mem _ hw', h⟩

/-- The window comparator only looks at chromosome, start and end. -/
theorem winLE_fields (contigIds : String → ℤ) (a b a' b' : RefWindow)
    (h1 : a.chrom = a'.chrom) (h2 : a.startPos = a'.startPos) (h3 : a.endPos = a'.endPos)
    (h4 : b.chrom = b'.chrom) (h5 : b.startPos = b'.startPos) (h6 : b.endPos = b'.endPos)
    (h : winLE contigIds a' b') : winLE contigIds a b := by
  unfold winLE at h ⊢
  rw [h1, h2, h3, h4, h5, h6]
  exact h

/-- Index assignment preserves sortedness by the window comparator. -/
theorem assignIndices_sorted (contigIds : String → ℤ) (c0 : ℕ) (ws : List RefWindow)
    (h : ws.Sorted (winLE contigIds)) :
    (assignIndices c0 ws).Sorted (winLE contigIds) := by
  induction ws generalizing c0 with
  | nil => exact List.sorted_nil
  | cons w ws ih =>
    rw [List.sorted_cons] at h
    unfold assignIndices
    rw [List.sorted_cons]
    refine ⟨fun y hy => ?_, ih (c0 + 1) h.2⟩
    obtain ⟨w', hw', hc, hs, he⟩ := assignIndices_mem (c0 + 1) ws y hy
    exact winLE_fields contigIds _ _ w w' rfl rfl rfl hc hs he (h.1 w' hw')

/-- Claim C9 (general part and failing input): every `BuildWindows`
result is sorted non-decreasingly by (contig ID, start, end) and its
window indices are the CONTIGUOUS RANGE STARTING AT THE STATIC COUNTER's
current value — which is `0..N-1` only on the first call of the process.
On the failing input (a first call producing two windows followed by a
second call producing one window over the same reference) the second
call's window receives index 2 instead of 0, violating the per-call
`0..N-1` property the claim and the spec state. -/
theorem C9_window_index_static_counter :
    (∀ (contigIds contigLen : String → ℤ) (pad wl po : ℕ)
        (regions : List RefWindow) (c0 : ℕ),
      ((BuildWindowsCall contigIds contigLen pad wl po regions c0).1).Sorted
          (winLE contigIds) ∧
      ((BuildWindowsCall contigIds contigLen pad wl po regions c0).1.map
          RefWindow.windowIndex)
        = List.range' c0
            (BuildWindowsCall contigIds contigLen pad wl po regions c0).1.length) ∧
    ((BuildWindowsCall (fun _ => 0) (fun _ => 10000) 0 1000 0 [⟨"c", 0, 2000, 0⟩] 0).1.map
        RefWindow.windowIndex) = [0, 1] ∧
    ((BuildWindowsCall (fun _ => 0) (fun _ => 10000) 0 1000 0 [⟨"c", 0, 500, 0⟩]
        (BuildWindowsCall (fun _ => 0) (fun _ => 10000) 0 1000 0
          [⟨"c", 0, 2000, 0⟩] 0).2).1.map RefWindow.windowIndex) = [2] := by
  refine ⟨fun contigIds contigLen pad wl po regions c0 => ?_, ?_⟩
  · unfold BuildWindowsCall
    constructor
    · exact assignIndices_sorted contigIds c0 _
        (List.sorted_insertionSort (winLE contigIds) _)
    · simp only [assignIndices_length]
      exact assignIndices_map c0 _
  · have hstep : StepSize 0 1000 = (1000 : ℤ) := by
      rw [StepSize_eq]; norm_num
    simp only [BuildWindowsCall, hstep]
    exact ⟨by decide, by decide⟩

end Lancet
